import Mathlib

/-!
# Verification of the octopus variant-calling core

Shallow embedding of the parts of the octopus source relevant to the
specification's claims, together with theorems settling each claim.

Source files embedded:
* `src/core/callers/trio_caller.cpp` (trio ploidy contract, model posterior,
  reference calls)
* `src/core/tools/vcf_record_factory.cpp` (genotype phasing separator, QUAL,
  indel resolution)
* `src/program_options.cpp` and `src/main.cpp` (conflicting refcall flags,
  exit codes)
* `src/variant_caller.cpp` (per-region loop, haplotype removal threshold,
  flank regions)

Region primitives (`basics/contig_region.hpp`), `utils/maths.hpp` and the VCF
builder are not part of the source snapshot; the few of their operations that
the embedded functions call are modelled from the specification's data model
(zero-based half-open intervals) and are marked `Modelled from the spec` in
their doc comments.
-/

namespace OctopusSpec

/-! ## C1: TrioCaller constructor ploidy contract (trio_caller.cpp lines 52-68) -/

/-- Embedding of `TrioCaller::TrioCaller` (trio_caller.cpp lines 52-68).
The constructor body only validates the three ploidies, throwing
`std::logic_error` or `BadPloidy` on the rejected combinations; we return the
thrown diagnostic in `Except.error`. `maxPloidy` stands for
`model::TrioModel::max_ploidy()`, whose definition is outside the snapshot. -/
def trioCallerConstruct (mat pat child maxPloidy : ℕ) : Except String Unit :=
  if mat = 0 && pat = 0 && child = 0 then
    .error "At least one sample must have positive ploidy"
  else if child = 0 && 0 < mat && 0 < pat then
    .error "There must be at least one inherited haplotype if both parents have zygosity"
  else if maxPloidy < mat || maxPloidy < pat || maxPloidy < child then
    .error "trio calling with ploidies greater than max_ploidy"
  else
    .ok ()

/-- The ploidy contract exactly as the claim states it: when child ploidy is
positive at most one parent ploidy may be zero; when child ploidy is zero both
parents must be positive. (Spec-side definition, for comparison with the
source's constructor.) -/
def claimedTrioPloidyContract (mat pat child : ℕ) : Prop :=
  (0 < child → ¬(mat = 0 ∧ pat = 0)) ∧ (child = 0 → 0 < mat ∧ 0 < pat)

instance (mat pat child : ℕ) : Decidable (claimedTrioPloidyContract mat pat child) := by
  unfold claimedTrioPloidyContract; infer_instance

/-! ## C2: genotype phasing separator (vcf_record_factory.cpp lines 513-522, 662-685) -/

/-- Phasing flag passed to `VcfRecord::Builder::set_genotype`. -/
inductive Phasing where
  | phased
  | unphased
deriving DecidableEq, Repr

/-- A per-sample genotype call: the called allele sequences plus optional
phase information (the phase region, when any phase information exists for
the sample). Embeds `Call::GenotypeCall` as used by the record factory. -/
structure GenotypeCall where
  genotype : List (List Char)
  phase : Option ℕ
deriving DecidableEq, Repr

/-- Embedding of `set_vcf_genotype` (vcf_record_factory.cpp lines 513-522):
it copies the allele sequences of the genotype and always passes
`VcfRecord::Builder::Phasing::phased` to the builder. -/
def set_vcf_genotype (gc : GenotypeCall) : List (List Char) × Phasing :=
  (gc.genotype, Phasing.phased)

/-- Embedding of the phasing argument at the `set_genotype` call in
`VcfRecordFactory::make_segment` (vcf_record_factory.cpp line 674): the
constant `VcfRecord::Builder::Phasing::phased`. -/
def makeSegmentGenotypePhasing : Phasing := Phasing.phased

/-- Modelled from the spec: the VCF output layer renders a genotype phasing
flag as the separator `|` when phased and `/` when unphased (the builder and
writer are outside the snapshot). -/
def genotypeSeparator : Phasing → Char
  | Phasing.phased => '|'
  | Phasing.unphased => '/'

/-! ## C3: conflicting refcall options and exit codes
(program_options.cpp lines 55-60, 164-391; main.cpp lines 25-58) -/

/-- A `po::bool_switch()->default_value(false)` option: it is always present
in the variables map (`vm.count` is 1) and reported as defaulted exactly when
it was not supplied on the command line. -/
structure BoolSwitch where
  supplied : Bool
deriving DecidableEq, Repr

/-- `vm.count(opt)` for a bool-switch option with a default value. -/
def bsCount (_ : BoolSwitch) : ℕ := 1

/-- `vm[opt].defaulted()` for a bool-switch option with a default value. -/
def bsDefaulted (o : BoolSwitch) : Bool := !o.supplied

/-- Embedding of `Options::conflicting_options` (program_options.cpp lines
55-60): throws `std::logic_error` when both options are present and neither
is defaulted. -/
def conflicting_options (opt1 : String) (count1 : ℕ) (defaulted1 : Bool)
    (opt2 : String) (count2 : ℕ) (defaulted2 : Bool) : Except String Unit :=
  if count1 ≠ 0 && !defaulted1 && count2 ≠ 0 && !defaulted2 then
    .error ("conflicting options '" ++ opt1 ++ "' and '" ++ opt2 ++ "'.")
  else
    .ok ()

/-- The refcall-flag conflict check performed by `parse_options`
(program_options.cpp line 385). -/
def refcallConflictCheck (positional blocked : BoolSwitch) : Except String Unit :=
  conflicting_options "make-positional-refcalls" (bsCount positional) (bsDefaulted positional)
    "make-blocked-refcalls" (bsCount blocked) (bsDefaulted blocked)

/-- Embedding of the tail of `Options::parse_options` (program_options.cpp
lines 374-391): the hand-written dependency checks, then the refcall-flag
conflict check. Any thrown option error is caught inside `parse_options`,
which prints `Option error: ...` and returns `boost::none`. -/
def parse_options (readsSupplied callerIsTrio maternalSupplied paternalSupplied : Bool)
    (positional blocked : BoolSwitch) : Option Unit :=
  if !readsSupplied then none
  else if callerIsTrio && (!maternalSupplied || !paternalSupplied) then none
  else
    match refcallConflictCheck positional blocked with
    | .error _ => none
    | .ok _ => some ()

/-- Embedding of `main` (main.cpp lines 25-58): when option parsing yields
none the program prints a message and falls through to `EXIT_SUCCESS`; when
it yields options, a run-command runs and any exception yields
`EXIT_FAILURE` (1); otherwise `EXIT_SUCCESS` (0). No path returns 2. -/
def main_exit (parsed : Option Unit) (isRunCommand runThrows : Bool) : ℕ :=
  match parsed with
  | none => 0
  | some _ => if isRunCommand && runThrows then 1 else 0

/-! ## C4: QUAL capping and rounding (vcf_record_factory.cpp lines 524-533, 648-650) -/

/-- Modelled from the spec: `maths::round(x, 2)` (utils/maths.hpp, outside
the snapshot) rounds to two decimals: `std::round(x * 100) / 100` with
`std::round` rounding half away from zero. -/
def mathsRound2 (q : ℚ) : ℚ :=
  (if 0 ≤ q * 100 then (⌊q * 100 + 1 / 2⌋ : ℚ) else -(⌊-(q * 100) + 1 / 2⌋ : ℚ)) / 100

/-- Embedding of the QUAL computation in `VcfRecordFactory::make`
(vcf_record_factory.cpp line 533): `std::min(5000.0, maths::round(call->quality().score(), 2))`. -/
def makeQual (quality : ℚ) : ℚ := min 5000 (mathsRound2 quality)

/-- `std::min_element` over the call qualities with `lhs->quality() < rhs->quality()`,
as used by `VcfRecordFactory::make_segment` (vcf_record_factory.cpp lines 648-649):
the minimum of the constituent call qualities. -/
def minQuality (q : ℚ) (qs : List ℚ) : ℚ := qs.foldl min q

/-- Embedding of the QUAL computation in `VcfRecordFactory::make_segment`
(vcf_record_factory.cpp line 650) for a merged record built from a non-empty
list of calls with qualities `q :: qs`. -/
def makeSegmentQual (q : ℚ) (qs : List ℚ) : ℚ := min 5000 (mathsRound2 (minQuality q qs))

/-! ## C6: trio model posterior (trio_caller.cpp lines 444-481) -/

/-- Modelled from the spec: `maths::log_sum_exp(a, b)` (utils/maths.hpp,
outside the snapshot), the numerically stable two-argument log-sum-exp:
`max + log(exp(a - max) + exp(b - max))`. -/
noncomputable def log_sum_exp (a b : ℝ) : ℝ :=
  max a b + Real.log (Real.exp (a - max a b) + Real.exp (b - max a b))

/-- `constexpr double normalModelPrior {0.9999999}` (trio_caller.cpp line 449). -/
noncomputable def normalModelPrior : ℝ := 0.9999999

/-- `constexpr double dummyModelPrior {1.0 - normalModelPrior}` (line 450). -/
noncomputable def dummyModelPrior : ℝ := 1 - normalModelPrior

/-- Embedding of the namespace-level `calculate_model_posterior` (trio_caller.cpp
lines 446-455): joint log-probabilities of the normal and dummy models,
normalised by log-sum-exp and exponentiated. -/
noncomputable def calculate_model_posterior_rule (normal_log_evidence dummy_log_evidence : ℝ) : ℝ :=
  Real.exp ((Real.log normalModelPrior + normal_log_evidence) -
    log_sum_exp (Real.log normalModelPrior + normal_log_evidence)
      (Real.log dummyModelPrior + dummy_log_evidence))

/-- Embedding of `TrioCaller::calculate_model_posterior` (trio_caller.cpp
lines 459-481): when the dummy model's ploidy `max_ploidy + 1` is within
`TrioModel::max_ploidy()`, combine the latents' log evidence with the dummy
model's log evidence; otherwise return none. The two log evidences are inputs
(the probabilistic models are outside the snapshot). -/
noncomputable def trioCalculateModelPosterior (maxPloidy modelMaxPloidy : ℕ)
    (latents_log_evidence dummy_log_evidence : ℝ) : Option ℝ :=
  if maxPloidy + 1 ≤ modelMaxPloidy then
    some (calculate_model_posterior_rule latents_log_evidence dummy_log_evidence)
  else
    none

/-! ## C5, C7, C10: the per-region calling loop
(variant_caller.cpp lines 50-70, 415-623, 640-659; trio_caller.cpp lines 1075-1080) -/

/-- `min_haplotype_posterior_ {1e-15}`, fixed in the `VariantCaller`
constructor (variant_caller.cpp line 62). -/
def minHaplotypePosterior : ℚ := 1 / 10 ^ 15

/-- Embedding of `VariantCaller::get_removable_haplotypes` (variant_caller.cpp
lines 640-659): collect every haplotype in the posterior map whose posterior
is strictly below `min_haplotype_posterior_`. Haplotypes are identified by
index; the posterior map is a list of (haplotype, posterior) pairs. -/
def get_removable_haplotypes (posteriors : List (ℕ × ℚ)) : List ℕ :=
  (posteriors.filter (fun p => decide (p.2 < minHaplotypePosterior))).map Prod.fst

/-- Embedding of `TrioCaller::call_reference` (trio_caller.cpp lines
1075-1080): it returns an empty list for every input. -/
def trioCallReference (_alleles : List ℕ) (_latents : List (ℕ × ℚ)) (_pileups : ℕ) :
    List ℕ :=
  []

/-- The per-iteration inputs of the `while (true)` loop in
`VariantCaller::call` (variant_caller.cpp lines 415-623). The external
collaborators (haplotype generator, likelihood cache, phaser, latent models)
are outside the snapshot, so their per-iteration answers are inputs:
`haps`/`activeIsAfterCall` from `generator.progress()` and
`is_after(active_region, call_region)`; `kept` from
`filter_to_n_haplotypes`; `posteriors` from the inferred latents;
`phaseFound`/`overlapsCallRegion` from `phaser.try_phase` and
`overlaps(active_region, call_region)`; `phasedCalls`/`uncalledCalls` from
`call_variants`; `nextHasPassed`/`beginsBeforeNext` from
`tell_next_active_region`; `refAlleles` from
`generate_candidate_reference_alleles`. -/
structure IterIn where
  haps : List ℕ
  activeIsAfterCall : Bool
  kept : List ℕ
  posteriors : List (ℕ × ℚ)
  phaseFound : Bool
  overlapsCallRegion : Bool
  phasedCalls : List ℕ
  nextHasPassed : Bool
  beginsBeforeNext : Bool
  uncalledCalls : List ℕ
  refcallsRequested : Bool
  refAlleles : List ℕ
  pileups : ℕ
deriving Repr

/-- What one iteration of the loop did: whether it broke out of the loop,
whether it abandoned the step via `generator.clear_progress()`, whether
latents were inferred, the variant calls and the reference calls appended to
the result, and the haplotype set passed to `generator.remove` after
querying `tell_next_active_region`. -/
structure IterOut where
  broke : Bool
  clearedProgress : Bool
  latentsInferred : Bool
  calls : List ℕ
  refcalls : List ℕ
  removedViaPosterior : Option (List ℕ)
deriving Repr

/-- Embedding of the body of the `while (true)` loop in `VariantCaller::call`
(variant_caller.cpp lines 415-623). Control flow in source order: break when
the active region is past the call region or no haplotypes were generated
(lines 424-435); `clear_progress` and `continue` when the likelihood filter
leaves no haplotypes (lines 472-477); otherwise infer latents (line 504),
emit the phased block's calls (lines 533-556), remove the sub-threshold
haplotypes when the next active region has not passed the current one (lines
562-571), and emit the uncalled region's variant calls and requested
reference calls (lines 573-620). `callReference` is the caller-specific
`call_reference` virtual (for the trio caller, `trioCallReference`). -/
def call_loop_iteration (inp : IterIn)
    (callReference : List ℕ → List (ℕ × ℚ) → ℕ → List ℕ) : IterOut :=
  if inp.activeIsAfterCall || inp.haps.isEmpty then
    { broke := true, clearedProgress := false, latentsInferred := false,
      calls := [], refcalls := [], removedViaPosterior := none }
  else if inp.kept.isEmpty then
    { broke := false, clearedProgress := true, latentsInferred := false,
      calls := [], refcalls := [], removedViaPosterior := none }
  else
    let phaseBlockCalls :=
      if inp.overlapsCallRegion && inp.phaseFound then inp.phasedCalls else []
    let removed :=
      if !inp.nextHasPassed then some (get_removable_haplotypes inp.posteriors) else none
    let uncalledRegionCalls :=
      if inp.beginsBeforeNext && inp.overlapsCallRegion then inp.uncalledCalls else []
    let referenceCalls :=
      if inp.beginsBeforeNext && inp.overlapsCallRegion && inp.refcallsRequested then
        callReference inp.refAlleles inp.posteriors inp.pileups
      else []
    { broke := false, clearedProgress := false, latentsInferred := true,
      calls := phaseBlockCalls ++ uncalledRegionCalls,
      refcalls := referenceCalls,
      removedViaPosterior := removed }

/-! ## Region primitives shared by C8 and C9 -/

/-- Modelled from the spec: a region is a zero-based half-open interval
`[begin, end)` on one contig (spec §3); `basics/contig_region.hpp` is outside
the snapshot. -/
structure CRegion where
  rb : ℕ
  re : ℕ
deriving DecidableEq, Repr

/-- Modelled from the spec: `is_empty_region` — `begin = end`. -/
def isEmptyR (r : CRegion) : Bool := r.rb == r.re

/-- Modelled from the spec: signed overlap size `min(end) − max(begin)`. -/
def overlapSizeR (l r : CRegion) : ℤ :=
  (min l.re r.re : ℤ) - (max l.rb r.rb : ℤ)

/-- Modelled from the spec: two regions overlap when the overlap size is
positive, or it is zero and one of them is empty (so an insertion at a
region's edge overlaps it). -/
def overlapsR (l r : CRegion) : Bool :=
  decide (0 < overlapSizeR l r) ||
    (decide (overlapSizeR l r = 0) && (isEmptyR l || isEmptyR r))

/-- Modelled from the spec: `begins_before` — strict order on begins. -/
def beginsBeforeR (l r : CRegion) : Bool := decide (l.rb < r.rb)

/-- Modelled from the spec: `ends_before` — strict order on ends. -/
def endsBeforeR (l r : CRegion) : Bool := decide (l.re < r.re)

/-- Modelled from the spec: `left_overhang_region(lhs, rhs)` — the part of
`lhs` strictly left of `rhs`. -/
def leftOverhangRegion (l r : CRegion) : CRegion :=
  ⟨l.rb, if beginsBeforeR l r then r.rb else l.rb⟩

/-- Modelled from the spec: `right_overhang_region(lhs, rhs)` — the part of
`lhs` strictly right of `rhs`. -/
def rightOverhangRegion (l r : CRegion) : CRegion :=
  ⟨if endsBeforeR r l then r.re else l.re, l.re⟩

/-- Modelled from the spec: `expand_rhs(region, n)` moves the right edge by
`n` (negative `n` shrinks). -/
def expandRhsR (r : CRegion) (n : ℤ) : CRegion := ⟨r.rb, ((r.re : ℤ) + n).toNat⟩

/-- Modelled from the spec: `expand_lhs(region, n)` moves the left edge left
by `n` (negative `n` shrinks). -/
def expandLhsR (r : CRegion) (n : ℤ) : CRegion := ⟨((r.rb : ℤ) - n).toNat, r.re⟩

/-- Modelled from the spec: `head_region` — the empty region at the begin. -/
def headRegionR (r : CRegion) : CRegion := ⟨r.rb, r.rb⟩

/-- Modelled from the spec: `tail_region` — the empty region at the end. -/
def tailRegionR (r : CRegion) : CRegion := ⟨r.re, r.re⟩

/-- Modelled from the spec: `closed_region(lhs, rhs)` — from the begin of
`lhs` to the end of `rhs`. -/
def closedRegionR (l r : CRegion) : CRegion := ⟨l.rb, r.re⟩

/-- Modelled from the spec: the mappable order used by `leftmost_mappable`
— begins first, ends to break ties. -/
def regionLtR (l r : CRegion) : Bool :=
  decide (l.rb < r.rb) || (l.rb == r.rb && decide (l.re < r.re))

/-- Modelled from the spec: the order used by `rightmost_mappable` — ends
first, begins to break ties. -/
def regionEndLtR (l r : CRegion) : Bool :=
  decide (l.re < r.re) || (l.re == r.re && decide (l.rb < r.rb))

/-- Modelled from the spec: `overlap_range(candidates, region)` — the
candidates overlapping the region. -/
def overlapRange (cands : List CRegion) (r : CRegion) : List CRegion :=
  cands.filter (fun c => overlapsR c r)

/-- Modelled from the spec: `leftmost_mappable` over a range (`std::min_element`
by the mappable order), none when the range is empty. -/
def leftmostRegionOf : List CRegion → Option CRegion
  | [] => none
  | c :: cs => some (cs.foldl (fun acc x => if regionLtR x acc then x else acc) c)

/-- Modelled from the spec: `rightmost_mappable` over a range
(`std::max_element` by the end-first order), none when the range is empty. -/
def rightmostRegionOf : List CRegion → Option CRegion
  | [] => none
  | c :: cs => some (cs.foldl (fun acc x => if regionEndLtR acc x then x else acc) c)

/-! ## C8: indel genotype resolution (vcf_record_factory.cpp lines 55-160) -/

/-- An allele: a region plus a byte sequence (spec §3). -/
structure CAllele where
  region : CRegion
  seq : List Char
deriving DecidableEq, Repr

/-- Modelled from the spec: `is_insertion(allele)` — an empty region with a
non-empty inserted sequence. -/
def isInsertionA (a : CAllele) : Bool := isEmptyR a.region && !a.seq.isEmpty

/-- Which side of a genotype allele the inserted sequence is stripped from:
calls left-adjacent to the insertion lose the trailing inserted copy
(vcf_record_factory.cpp lines 101-103), calls at the insertion's position
lose the leading inserted copy (lines 142-144). -/
inductive StripSide where
  | trailing
  | leading
deriving DecidableEq, Repr

/-- The stripped sequence: drop `k` characters from the relevant side. -/
def stripResolvedSequence (side : StripSide) (s : List Char) (k : ℕ) : List Char :=
  match side with
  | StripSide.trailing => s.take (s.length - k)
  | StripSide.leading => s.drop k

/-- The payload of `InconsistentCallError` (vcf_record_factory.cpp lines
55-77): the sample and the two alleles that were both called. -/
structure InconsistentCallError where
  sample : ℕ
  first : CAllele
  second : CAllele
deriving DecidableEq, Repr

/-- Embedding of the per-genotype transform inside `resolve_indel_genotypes`
(vcf_record_factory.cpp lines 93-106 and 134-147): the sample's genotype
alleles are paired elementwise with the insertion call's genotype alleles;
where the paired allele is an insertion, a sequence no longer than the
inserted sequence throws `InconsistentCallError {sample, allele1, allele2}`,
otherwise the inserted length is stripped from the sequence; other alleles
pass through unchanged. -/
def resolveGenotypeAlleles (sample : ℕ) (side : StripSide) :
    List (CAllele × CAllele) → Except InconsistentCallError (List (List Char))
  | [] => .ok []
  | p :: ps =>
    if isInsertionA p.2 then
      if p.1.seq.length ≤ p.2.seq.length then
        .error ⟨sample, p.1, p.2⟩
      else
        match resolveGenotypeAlleles sample side ps with
        | .error e => .error e
        | .ok rest => .ok (stripResolvedSequence side p.1.seq p.2.seq.length :: rest)
    else
      match resolveGenotypeAlleles sample side ps with
      | .error e => .error e
      | .ok rest => .ok (p.1.seq :: rest)

/-- Spec-side: a genotype-allele / insertion-allele pair is inconsistent when
the paired allele is an insertion and the sequence is no longer than the
inserted sequence. -/
def offendingPair (p : CAllele × CAllele) : Bool :=
  isInsertionA p.2 && decide (p.1.seq.length ≤ p.2.seq.length)

/-- Spec-side: the resolved sequence of one pair on the success path. -/
def resolvedPairSeq (side : StripSide) (p : CAllele × CAllele) : List Char :=
  if isInsertionA p.2 then stripResolvedSequence side p.1.seq p.2.seq.length
  else p.1.seq

/-! ## C9: flank regions (variant_caller.cpp lines 196-246) -/

/-- The left flank used when classifying inactive candidates, per
`calculate_flank_regions` (variant_caller.cpp lines 200-209): the left
overhang of the haplotype region over the active region, shrunk on the right
by one position when the leftmost active candidate is an empty region
(a boundary insertion) and the flank is non-empty. -/
def lhsFlankForClassify (hapR activeR : CRegion) (cands : List CRegion) : CRegion :=
  let lf := leftOverhangRegion hapR activeR
  match leftmostRegionOf (overlapRange cands activeR) with
  | some c => if isEmptyR c && !isEmptyR lf then expandRhsR lf (-1) else lf
  | none => lf

/-- The candidates classified as left-inactive (variant_caller.cpp line 211). -/
def lhsInactiveCandidates (hapR activeR : CRegion) (cands : List CRegion) : List CRegion :=
  overlapRange cands (lhsFlankForClassify hapR activeR cands)

/-- The right flank used when classifying inactive candidates, per
`calculate_flank_regions` (variant_caller.cpp lines 219-221): symmetric to
the left flank, shrunk on the left by one position when the rightmost active
candidate is an empty region and the flank is non-empty. -/
def rhsFlankForClassify (hapR activeR : CRegion) (cands : List CRegion) : CRegion :=
  let rf := rightOverhangRegion hapR activeR
  match rightmostRegionOf (overlapRange cands activeR) with
  | some c => if isEmptyR c && !isEmptyR rf then expandLhsR rf (-1) else rf
  | none => rf

/-- The candidates classified as right-inactive (variant_caller.cpp line 223). -/
def rhsInactiveCandidates (hapR activeR : CRegion) (cands : List CRegion) : List CRegion :=
  overlapRange cands (rhsFlankForClassify hapR activeR cands)

/-- Embedding of `calculate_flank_regions` (variant_caller.cpp lines
196-232): compute both classification flanks, then trim each to the
candidates it actually contains (the head/tail region when no inactive
candidate overlaps it, otherwise out to the rightmost/leftmost inactive
candidate). -/
def calculate_flank_regions (hapR activeR : CRegion) (cands : List CRegion) :
    CRegion × CRegion :=
  let lf := lhsFlankForClassify hapR activeR cands
  let lhsFinal :=
    match rightmostRegionOf (lhsInactiveCandidates hapR activeR cands) with
    | none => headRegionR lf
    | some m => closedRegionR lf m
  let rf := rhsFlankForClassify hapR activeR cands
  let rhsFinal :=
    match leftmostRegionOf (rhsInactiveCandidates hapR activeR cands) with
    | none => tailRegionR rf
    | some m => closedRegionR m rf
  (lhsFinal, rhsFinal)

end OctopusSpec

namespace OctopusSpec

/-! ## Theorems for C1 -/

/-- C1 counterexample: the ploidy combination (maternal 1, paternal 1,
child 0) satisfies the claimed contract, yet `TrioCaller::TrioCaller`
rejects it ("There must be at least one inherited haplotype if both parents
have zygosity"); so the claim that every combination satisfying the contract
is accepted is false. -/
theorem trio_ploidy_claim_counterexample :
    claimedTrioPloidyContract 1 1 0 ∧
      trioCallerConstruct 1 1 0 3 =
        .error "There must be at least one inherited haplotype if both parents have zygosity" := by
  constructor
  · constructor
    · intro h; exact absurd h (by decide)
    · intro _; exact ⟨Nat.one_pos, Nat.one_pos⟩
  · rfl

/-- C1 (corrected): `TrioCaller::TrioCaller` accepts a ploidy combination
exactly when not all three ploidies are zero, it is NOT the case that the
child ploidy is zero while both parents are positive, and no ploidy exceeds
`TrioModel::max_ploidy()`. In particular, for child ploidy zero the code
requires at least one parent to have ploidy zero — the opposite of the
claimed contract — and it accepts both parents having ploidy zero with a
positive child ploidy. -/
theorem trio_ploidy_contract_characterisation (mat pat child maxPloidy : ℕ) :
    (trioCallerConstruct mat pat child maxPloidy).isOk = true ↔
      (¬(mat = 0 ∧ pat = 0 ∧ child = 0) ∧
       ¬(child = 0 ∧ 0 < mat ∧ 0 < pat) ∧
       mat ≤ maxPloidy ∧ pat ≤ maxPloidy ∧ child ≤ maxPloidy) := by
  unfold trioCallerConstruct
  split_ifs with h1 h2 h3
  · show (false = true) ↔ _
    simp only [Bool.and_eq_true, decide_eq_true_eq] at h1
    constructor
    · intro hF; exact absurd hF (by decide)
    · intro h; exfalso; omega
  · show (false = true) ↔ _
    simp only [Bool.and_eq_true, decide_eq_true_eq] at h2
    constructor
    · intro hF; exact absurd hF (by decide)
    · intro h; exfalso; omega
  · show (false = true) ↔ _
    simp only [Bool.or_eq_true, decide_eq_true_eq] at h3
    constructor
    · intro hF; exact absurd hF (by decide)
    · intro h; exfalso; omega
  · show (true = true) ↔ _
    simp only [Bool.and_eq_true, Bool.or_eq_true, decide_eq_true_eq] at h1 h2 h3
    constructor
    · intro _; omega
    · intro _; rfl

/-! ## Theorems for C2 -/

/-- C2 counterexample: a sample genotype call carrying no phase information is
nevertheless emitted with the phased separator `|` by `set_vcf_genotype`,
refuting the claim that `|` is used if and only if phase information exists
for the sample. -/
theorem phased_separator_claim_counterexample :
    ¬((genotypeSeparator (set_vcf_genotype ⟨[['A'], ['C']], none⟩).2 = '|') ↔
        (GenotypeCall.mk [['A'], ['C']] none).phase.isSome = true) := by
  decide

/-- C2 (corrected): every emitted sample genotype uses the phased separator
`|`, regardless of whether any phase information exists for the sample:
`set_vcf_genotype` always passes `Phasing::phased` to the record builder, and
`VcfRecordFactory::make_segment` likewise hard-codes `Phasing::phased`. Phase
information only controls the PS/PQ format fields, never the separator. -/
theorem genotype_separator_always_phased (gc : GenotypeCall) :
    (set_vcf_genotype gc).2 = Phasing.phased ∧
      genotypeSeparator (set_vcf_genotype gc).2 = '|' ∧
      genotypeSeparator makeSegmentGenotypePhasing = '|' := by
  exact ⟨rfl, rfl, rfl⟩

/-! ## Theorems for C3 -/

/-- C3 counterexample: with both `make-positional-refcalls` and
`make-blocked-refcalls` supplied, the conflict check rejects them, parsing
returns none — and `main` then returns `EXIT_SUCCESS`, i.e. exit code 0, not
the claimed usage-error exit code 2. -/
theorem refcall_conflict_exit_code_counterexample :
    (refcallConflictCheck ⟨true⟩ ⟨true⟩).isOk = false ∧
      parse_options true false false false ⟨true⟩ ⟨true⟩ = none ∧
      main_exit (parse_options true false false false ⟨true⟩ ⟨true⟩) true false = 0 ∧
      main_exit (parse_options true false false false ⟨true⟩ ⟨true⟩) true false ≠ 2 := by
  decide

/-- C3 (corrected): supplying both refcall flags is rejected as conflicting
(the check fails exactly when both are supplied, so at most one supplied is
never rejected as conflicting), option parsing then returns none and no run
starts — but the process exits with code 0 (`EXIT_SUCCESS`), not 2: `main`
prints "could not parse input options" and falls through to success. -/
theorem refcall_conflict_characterisation (positional blocked : BoolSwitch) :
    ((refcallConflictCheck positional blocked).isOk = true ↔
      ¬(positional.supplied = true ∧ blocked.supplied = true)) ∧
    (positional.supplied = true → blocked.supplied = true →
      ∀ rs ct ms ps run throws,
        parse_options rs ct ms ps positional blocked = none ∧
          main_exit (parse_options rs ct ms ps positional blocked) run throws = 0) := by
  obtain ⟨p⟩ := positional
  obtain ⟨b⟩ := blocked
  cases p <;> cases b <;> decide

/-- Witness for `refcall_conflict_characterisation` at a concrete input with
both flags supplied. -/
theorem refcall_conflict_characterisation_witness :
    parse_options true true true true ⟨true⟩ ⟨true⟩ = none ∧
      main_exit (parse_options true true true true ⟨true⟩ ⟨true⟩) true true = 0 :=
  (refcall_conflict_characterisation ⟨true⟩ ⟨true⟩).2 rfl rfl true true true true true true

/-! ## Theorems for C4 -/

/-- The fold computing `std::min_element` yields one of its inputs. -/
theorem foldl_min_mem (qs : List ℚ) : ∀ q : ℚ, qs.foldl min q ∈ q :: qs := by
  induction qs with
  | nil => intro q; simp
  | cons x xs ih =>
    intro q
    simp only [List.foldl_cons]
    have h := ih (min q x)
    rcases List.mem_cons.mp h with h'' | h''
    · rcases min_choice q x with h' | h'
      · exact List.mem_cons.mpr (Or.inl (h''.trans h'))
      · exact List.mem_cons.mpr (Or.inr (List.mem_cons.mpr (Or.inl (h''.trans h'))))
    · exact List.mem_cons.mpr (Or.inr (List.mem_cons.mpr (Or.inr h'')))

/-- Rounding to two decimals always yields a multiple of 1/100. -/
theorem mathsRound2_mul_100_int (x : ℚ) : ∃ z : ℤ, mathsRound2 x * 100 = (z : ℚ) := by
  have h100 : (100 : ℚ) ≠ 0 := by norm_num
  unfold mathsRound2
  split_ifs with h
  · exact ⟨⌊x * 100 + 1 / 2⌋, div_mul_cancel₀ _ h100⟩
  · refine ⟨-⌊-(x * 100) + 1 / 2⌋, ?_⟩
    rw [div_mul_cancel₀ _ h100]
    push_cast
    ring

/-- C4 (confirmed): for a single-call record QUAL is the call's quality
rounded to two decimals and capped at 5000; it never exceeds 5000 and is an
integer multiple of 1/100. For a merged multi-call record QUAL is derived
from the constituent calls' qualities: it is the cap/round of their minimum,
which is itself one of the constituent qualities. -/
theorem qual_capped_and_rounded (q : ℚ) (qs : List ℚ) :
    makeQual q ≤ 5000 ∧
    (∃ z : ℤ, makeQual q * 100 = (z : ℚ)) ∧
    makeSegmentQual q qs ≤ 5000 ∧
    makeSegmentQual q qs = makeQual (minQuality q qs) ∧
    minQuality q qs ∈ q :: qs := by
  refine ⟨min_le_left _ _, ?_, min_le_left _ _, rfl, foldl_min_mem qs q⟩
  unfold makeQual
  rcases min_cases (5000 : ℚ) (mathsRound2 q) with ⟨h, _⟩ | ⟨h, _⟩
  · exact ⟨500000, by rw [h]; norm_num⟩
  · obtain ⟨z, hz⟩ := mathsRound2_mul_100_int q
    exact ⟨z, by rw [h]; exact hz⟩

/-! ## Theorems for C6 -/

/-- The stable log-sum-exp agrees with `log (exp a + exp b)` in exact real
arithmetic. -/
theorem log_sum_exp_eq (a b : ℝ) :
    log_sum_exp a b = Real.log (Real.exp a + Real.exp b) := by
  unfold log_sum_exp
  have hpos : 0 < Real.exp (a - max a b) + Real.exp (b - max a b) :=
    add_pos (Real.exp_pos _) (Real.exp_pos _)
  have e1 : max a b + (a - max a b) = a := by ring
  have e2 : max a b + (b - max a b) = b := by ring
  have key : Real.exp (max a b) * (Real.exp (a - max a b) + Real.exp (b - max a b)) =
      Real.exp a + Real.exp b := by
    rw [mul_add, ← Real.exp_add, ← Real.exp_add, e1, e2]
  calc max a b + Real.log (Real.exp (a - max a b) + Real.exp (b - max a b))
      = Real.log (Real.exp (max a b)) +
          Real.log (Real.exp (a - max a b) + Real.exp (b - max a b)) := by
        rw [Real.log_exp]
    _ = Real.log (Real.exp (max a b) *
          (Real.exp (a - max a b) + Real.exp (b - max a b))) :=
        (Real.log_mul (Real.exp_ne_zero _) (ne_of_gt hpos)).symm
    _ = Real.log (Real.exp a + Real.exp b) := by rw [key]

/-- C6 (confirmed): the trio caller's whole-region model posterior is the
two-model combining rule with fixed normal-model prior `1 − 1e−7`; it equals
`exp(l_n + log(1−1e−7)) / (exp(l_n + log(1−1e−7)) + exp(l_d + log(1e−7)))`
and always lies in `[0, 1]`, and `TrioCaller::calculate_model_posterior`
returns exactly this value whenever the dummy ploidy fits the model. -/
theorem trio_model_posterior_combining_rule (ln ld : ℝ) :
    calculate_model_posterior_rule ln ld =
      Real.exp (ln + Real.log (1 - 1 / 10 ^ 7)) /
        (Real.exp (ln + Real.log (1 - 1 / 10 ^ 7)) + Real.exp (ld + Real.log (1 / 10 ^ 7))) ∧
    0 ≤ calculate_model_posterior_rule ln ld ∧
    calculate_model_posterior_rule ln ld ≤ 1 ∧
    (∀ maxPloidy modelMaxPloidy : ℕ, maxPloidy + 1 ≤ modelMaxPloidy →
      trioCalculateModelPosterior maxPloidy modelMaxPloidy ln ld =
        some (calculate_model_posterior_rule ln ld)) := by
  have hnp : normalModelPrior = 1 - 1 / 10 ^ 7 := by
    unfold normalModelPrior; norm_num
  have hdp : dummyModelPrior = 1 / 10 ^ 7 := by
    unfold dummyModelPrior normalModelPrior; norm_num
  have hA : Real.log normalModelPrior + ln = ln + Real.log (1 - 1 / 10 ^ 7) := by
    rw [hnp, add_comm]
  have hB : Real.log dummyModelPrior + ld = ld + Real.log (1 / 10 ^ 7) := by
    rw [hdp, add_comm]
  have hpos : 0 < Real.exp (ln + Real.log (1 - 1 / 10 ^ 7)) +
      Real.exp (ld + Real.log (1 / 10 ^ 7)) :=
    add_pos (Real.exp_pos _) (Real.exp_pos _)
  have h1 : calculate_model_posterior_rule ln ld =
      Real.exp (ln + Real.log (1 - 1 / 10 ^ 7)) /
        (Real.exp (ln + Real.log (1 - 1 / 10 ^ 7)) + Real.exp (ld + Real.log (1 / 10 ^ 7))) := by
    unfold calculate_model_posterior_rule
    rw [log_sum_exp_eq, hA, hB, Real.exp_sub, Real.exp_log hpos]
  refine ⟨h1, ?_, ?_, ?_⟩
  · rw [h1]
    exact div_nonneg (Real.exp_pos _).le hpos.le
  · rw [h1]
    exact (div_le_one hpos).mpr (le_add_of_nonneg_right (Real.exp_pos _).le)
  · intro maxPloidy modelMaxPloidy h
    unfold trioCalculateModelPosterior
    rw [if_pos h]

/-- Witness for `trio_model_posterior_combining_rule`: the inner ploidy
hypothesis discharged at a concrete input. -/
theorem trio_model_posterior_combining_rule_witness :
    trioCalculateModelPosterior 2 3 0 0 = some (calculate_model_posterior_rule 0 0) :=
  (trio_model_posterior_combining_rule 0 0).2.2.2 2 3 (by decide)

/-! ## Theorems for C5 -/

/-- C5 (confirmed): `get_removable_haplotypes` returns precisely the
haplotypes whose posterior is strictly below the fixed threshold `1e-15`,
and in the per-region loop these are exactly the ones handed to
`generator.remove` when the next active region has not passed the current
one. -/
theorem removable_haplotypes_threshold (inp : IterIn)
    (callReference : List ℕ → List (ℕ × ℚ) → ℕ → List ℕ)
    (hactive : inp.activeIsAfterCall = false) (hhaps : inp.haps.isEmpty = false)
    (hkept : inp.kept.isEmpty = false) (hnext : inp.nextHasPassed = false) :
    (call_loop_iteration inp callReference).removedViaPosterior =
      some (get_removable_haplotypes inp.posteriors) ∧
    ∀ h : ℕ, h ∈ get_removable_haplotypes inp.posteriors ↔
      ∃ q : ℚ, (h, q) ∈ inp.posteriors ∧ q < minHaplotypePosterior := by
  constructor
  · simp [call_loop_iteration, hactive, hhaps, hkept, hnext]
  · intro h
    unfold get_removable_haplotypes
    simp only [List.mem_map, List.mem_filter, decide_eq_true_eq]
    constructor
    · rintro ⟨⟨h', q⟩, ⟨hmem, hlt⟩, rfl⟩
      exact ⟨q, hmem, hlt⟩
    · rintro ⟨q, hmem, hlt⟩
      exact ⟨(h, q), ⟨hmem, hlt⟩, rfl⟩

/-- A concrete loop-iteration input whose posterior map holds one haplotype
below the removal threshold and one above it. -/
def iterInRemovable : IterIn :=
  { haps := [0, 1], activeIsAfterCall := false, kept := [0, 1],
    posteriors := [(0, 1 / 10 ^ 16), (1, 1 / 2)],
    phaseFound := false, overlapsCallRegion := true, phasedCalls := [],
    nextHasPassed := false, beginsBeforeNext := false, uncalledCalls := [],
    refcallsRequested := false, refAlleles := [], pileups := 0 }

/-- Witness for `removable_haplotypes_threshold` at a concrete input. -/
theorem removable_haplotypes_threshold_witness :
    (call_loop_iteration iterInRemovable trioCallReference).removedViaPosterior =
      some (get_removable_haplotypes [(0, 1 / 10 ^ 16), (1, 1 / 2)]) ∧
    (0 ∈ get_removable_haplotypes [(0, 1 / 10 ^ 16), (1, 1 / 2)] ↔
      ∃ q : ℚ, ((0 : ℕ), q) ∈ [((0 : ℕ), (1 / 10 ^ 16 : ℚ)), (1, 1 / 2)] ∧
        q < minHaplotypePosterior) :=
  ⟨(removable_haplotypes_threshold iterInRemovable trioCallReference rfl rfl rfl rfl).1,
   (removable_haplotypes_threshold iterInRemovable trioCallReference rfl rfl rfl rfl).2 0⟩

/-! ## Theorems for C7 -/

/-- C7 (confirmed): when the likelihood filter leaves an empty haplotype set
(and the loop did not already break), the step is abandoned: the generator's
`clear_progress` is called, the loop continues (no break), no latents are
inferred and no variant or reference calls are emitted, and nothing is
removed via posteriors for that step. -/
theorem empty_filter_abandons_step (inp : IterIn)
    (callReference : List ℕ → List (ℕ × ℚ) → ℕ → List ℕ)
    (hactive : inp.activeIsAfterCall = false) (hhaps : inp.haps.isEmpty = false)
    (hkept : inp.kept.isEmpty = true) :
    call_loop_iteration inp callReference =
      { broke := false, clearedProgress := true, latentsInferred := false,
        calls := [], refcalls := [], removedViaPosterior := none } := by
  simp [call_loop_iteration, hactive, hhaps, hkept]

/-- A concrete loop-iteration input on which the likelihood filter removed
every haplotype. -/
def iterInAllFiltered : IterIn :=
  { haps := [0, 1], activeIsAfterCall := false, kept := [],
    posteriors := [(0, 1 / 2), (1, 1 / 2)],
    phaseFound := true, overlapsCallRegion := true, phasedCalls := [7],
    nextHasPassed := false, beginsBeforeNext := true, uncalledCalls := [8],
    refcallsRequested := true, refAlleles := [3], pileups := 0 }

/-- Witness for `empty_filter_abandons_step` at a concrete input. -/
theorem empty_filter_abandons_step_witness :
    call_loop_iteration iterInAllFiltered trioCallReference =
      { broke := false, clearedProgress := true, latentsInferred := false,
        calls := [], refcalls := [], removedViaPosterior := none } :=
  empty_filter_abandons_step iterInAllFiltered trioCallReference rfl rfl rfl

/-! ## Theorems for C10 -/

/-- C10 (confirmed): `TrioCaller::call_reference` returns the empty list for
every input, and consequently a loop iteration running with the trio
caller's `call_reference` emits no reference calls, even when reference
calls are requested. -/
theorem trio_call_reference_always_empty (alleles : List ℕ)
    (latents : List (ℕ × ℚ)) (pileups : ℕ) (inp : IterIn) :
    trioCallReference alleles latents pileups = [] ∧
    (call_loop_iteration inp trioCallReference).refcalls = [] := by
  refine ⟨rfl, ?_⟩
  unfold call_loop_iteration
  split_ifs <;> simp [trioCallReference]

/-! ## Theorems for C8 -/

/-- C8 (confirmed): indel resolution fails fast exactly on inconsistent
insertion alleles. For a sample's genotype alleles paired with an insertion
call's genotype, the resolution throws `InconsistentCallError` naming the
sample and the first offending pair of alleles exactly when some paired
allele is an insertion whose inserted sequence is at least as long as the
sample allele's sequence; otherwise no error is raised and each allele paired
with an insertion has the inserted length stripped from it. -/
theorem indel_resolution_error_characterisation (sample : ℕ) (side : StripSide)
    (ps : List (CAllele × CAllele)) :
    resolveGenotypeAlleles sample side ps =
      match ps.find? offendingPair with
      | some p => .error ⟨sample, p.1, p.2⟩
      | none => .ok (ps.map (resolvedPairSeq side)) := by
  induction ps with
  | nil => rfl
  | cons p ps ih =>
    by_cases h1 : isInsertionA p.2 = true
    · by_cases h2 : p.1.seq.length ≤ p.2.seq.length
      · have ho : offendingPair p = true := by
          simp [offendingPair, h1, h2]
        rw [List.find?_cons_of_pos _ ho]
        simp only [resolveGenotypeAlleles]
        rw [if_pos h1, if_pos h2]
      · have ho : ¬ offendingPair p = true := by
          simp [offendingPair, h2]
        rw [List.find?_cons_of_neg _ ho]
        simp only [resolveGenotypeAlleles]
        rw [if_pos h1, if_neg h2, ih]
        cases hf : ps.find? offendingPair
        · simp [resolvedPairSeq, h1]
        · simp
    · have ho : ¬ offendingPair p = true := by
        simp [offendingPair, h1]
      rw [List.find?_cons_of_neg _ ho]
      simp only [resolveGenotypeAlleles]
      rw [if_neg h1, ih]
      cases hf : ps.find? offendingPair
      · simp [resolvedPairSeq, h1]
      · simp

/-! ## Theorems for C9 -/

/-- A fold whose step keeps either the accumulator or the new element yields
one of its inputs (the shape of `std::min_element`/`std::max_element`). -/
theorem foldl_choice_mem (g : CRegion → CRegion → CRegion)
    (hg : ∀ acc x, g acc x = acc ∨ g acc x = x) (cs : List CRegion) :
    ∀ a : CRegion, cs.foldl g a ∈ a :: cs := by
  induction cs with
  | nil => intro a; simp
  | cons x xs ih =>
    intro a
    simp only [List.foldl_cons]
    have h := ih (g a x)
    rcases List.mem_cons.mp h with h1 | h1
    · rcases hg a x with h2 | h2
      · exact List.mem_cons.mpr (Or.inl (h1.trans h2))
      · exact List.mem_cons.mpr (Or.inr (List.mem_cons.mpr (Or.inl (h1.trans h2))))
    · exact List.mem_cons.mpr (Or.inr (List.mem_cons.mpr (Or.inr h1)))

/-- The leftmost region of a range is in the range. -/
theorem leftmostRegionOf_mem {l : List CRegion} {c : CRegion}
    (h : leftmostRegionOf l = some c) : c ∈ l := by
  match l with
  | [] => cases h
  | x :: xs =>
    simp only [leftmostRegionOf, Option.some.injEq] at h
    have hm := foldl_choice_mem (fun acc y => if regionLtR y acc then y else acc)
      (fun acc y => by
        by_cases hy : regionLtR y acc = true
        · exact Or.inr (by simp [hy])
        · exact Or.inl (by simp [hy])) xs x
    rw [h] at hm
    exact hm

/-- The rightmost region of a range is in the range. -/
theorem rightmostRegionOf_mem {l : List CRegion} {c : CRegion}
    (h : rightmostRegionOf l = some c) : c ∈ l := by
  match l with
  | [] => cases h
  | x :: xs =>
    simp only [rightmostRegionOf, Option.some.injEq] at h
    have hm := foldl_choice_mem (fun acc y => if regionEndLtR acc y then y else acc)
      (fun acc y => by
        by_cases hy : regionEndLtR acc y = true
        · exact Or.inr (by simp [hy])
        · exact Or.inl (by simp [hy])) xs x
    rw [h] at hm
    exact hm

/-- C9 (corrected): when the leftmost candidate overlapping the active region
is an empty region (a boundary insertion) and the left flank is non-empty,
the left flank used for classifying inactive candidates is the left overhang
shrunk on the right by one position — and as a consequence the boundary
insertion does NOT overlap that flank: it is excluded from the inactive
candidates and remains active-only, hence not double-counted. Symmetrically
for a boundary insertion at the right edge. -/
theorem flank_boundary_insertion_classification (hapR activeR : CRegion)
    (cands : List CRegion) :
    (∀ c : CRegion, leftmostRegionOf (overlapRange cands activeR) = some c →
      isEmptyR c = true → isEmptyR (leftOverhangRegion hapR activeR) = false →
      lhsFlankForClassify hapR activeR cands =
          expandRhsR (leftOverhangRegion hapR activeR) (-1) ∧
        c ∈ overlapRange cands activeR ∧
        c ∉ lhsInactiveCandidates hapR activeR cands) ∧
    (∀ c : CRegion, rightmostRegionOf (overlapRange cands activeR) = some c →
      isEmptyR c = true → isEmptyR (rightOverhangRegion hapR activeR) = false →
      rhsFlankForClassify hapR activeR cands =
          expandLhsR (rightOverhangRegion hapR activeR) (-1) ∧
        c ∈ overlapRange cands activeR ∧
        c ∉ rhsInactiveCandidates hapR activeR cands) := by
  constructor
  · intro c hl he hf
    have hflank : lhsFlankForClassify hapR activeR cands =
        expandRhsR (leftOverhangRegion hapR activeR) (-1) := by
      unfold lhsFlankForClassify
      rw [hl]
      simp [he, hf]
    have hmem : c ∈ overlapRange cands activeR := leftmostRegionOf_mem hl
    refine ⟨hflank, hmem, ?_⟩
    intro habs
    have hov1 : overlapsR c activeR = true := (List.mem_filter.mp hmem).2
    have hov2 : overlapsR c (lhsFlankForClassify hapR activeR cands) = true :=
      (List.mem_filter.mp habs).2
    rw [hflank] at hov2
    simp only [overlapsR, overlapSizeR, isEmptyR, expandRhsR, leftOverhangRegion,
      beginsBeforeR, Bool.or_eq_true, Bool.and_eq_true, decide_eq_true_eq,
      beq_iff_eq, beq_eq_false_iff_ne, ne_eq] at hov1 hov2 he hf
    split_ifs at hov2 hf <;> omega
  · intro c hr he hf
    have hflank : rhsFlankForClassify hapR activeR cands =
        expandLhsR (rightOverhangRegion hapR activeR) (-1) := by
      unfold rhsFlankForClassify
      rw [hr]
      simp [he, hf]
    have hmem : c ∈ overlapRange cands activeR := rightmostRegionOf_mem hr
    refine ⟨hflank, hmem, ?_⟩
    intro habs
    have hov1 : overlapsR c activeR = true := (List.mem_filter.mp hmem).2
    have hov2 : overlapsR c (rhsFlankForClassify hapR activeR cands) = true :=
      (List.mem_filter.mp habs).2
    rw [hflank] at hov2
    simp only [overlapsR, overlapSizeR, isEmptyR, expandLhsR, rightOverhangRegion,
      endsBeforeR, Bool.or_eq_true, Bool.and_eq_true, decide_eq_true_eq,
      beq_iff_eq, beq_eq_false_iff_ne, ne_eq] at hov1 hov2 he hf
    split_ifs at hov2 hf <;> omega

/-- Witness for `flank_boundary_insertion_classification`: haplotype region
`[0,10)`, active region `[4,6)`, candidates `[2,3) [4,4) [6,6) [8,9)` —
boundary insertions at both edges of the active region with non-empty
flanks. -/
theorem flank_boundary_insertion_classification_witness :
    (lhsFlankForClassify ⟨0, 10⟩ ⟨4, 6⟩
        [⟨2, 3⟩, ⟨4, 4⟩, ⟨6, 6⟩, ⟨8, 9⟩] =
          expandRhsR (leftOverhangRegion ⟨0, 10⟩ ⟨4, 6⟩) (-1) ∧
      (⟨4, 4⟩ : CRegion) ∈ overlapRange [⟨2, 3⟩, ⟨4, 4⟩, ⟨6, 6⟩, ⟨8, 9⟩] ⟨4, 6⟩ ∧
      (⟨4, 4⟩ : CRegion) ∉ lhsInactiveCandidates ⟨0, 10⟩ ⟨4, 6⟩
        [⟨2, 3⟩, ⟨4, 4⟩, ⟨6, 6⟩, ⟨8, 9⟩]) ∧
    (rhsFlankForClassify ⟨0, 10⟩ ⟨4, 6⟩
        [⟨2, 3⟩, ⟨4, 4⟩, ⟨6, 6⟩, ⟨8, 9⟩] =
          expandLhsR (rightOverhangRegion ⟨0, 10⟩ ⟨4, 6⟩) (-1) ∧
      (⟨6, 6⟩ : CRegion) ∈ overlapRange [⟨2, 3⟩, ⟨4, 4⟩, ⟨6, 6⟩, ⟨8, 9⟩] ⟨4, 6⟩ ∧
      (⟨6, 6⟩ : CRegion) ∉ rhsInactiveCandidates ⟨0, 10⟩ ⟨4, 6⟩
        [⟨2, 3⟩, ⟨4, 4⟩, ⟨6, 6⟩, ⟨8, 9⟩]) :=
  ⟨(flank_boundary_insertion_classification ⟨0, 10⟩ ⟨4, 6⟩
      [⟨2, 3⟩, ⟨4, 4⟩, ⟨6, 6⟩, ⟨8, 9⟩]).1 ⟨4, 4⟩ (by decide) (by decide) (by decide),
   (flank_boundary_insertion_classification ⟨0, 10⟩ ⟨4, 6⟩
      [⟨2, 3⟩, ⟨4, 4⟩, ⟨6, 6⟩, ⟨8, 9⟩]).2 ⟨6, 6⟩ (by decide) (by decide) (by decide)⟩

/-- C9 counterexample: with haplotype region `[0,10)`, active region
`[5,10)` and candidates `[2,3)` and the boundary insertion `[5,5)`, the
shrink condition holds, yet the boundary insertion is NOT among the
inactive flank candidates — it does not "stay inactive" as the claim says;
it stays active-only. -/
theorem flank_boundary_insertion_stays_inactive_counterexample :
    leftmostRegionOf (overlapRange [⟨2, 3⟩, ⟨5, 5⟩] ⟨5, 10⟩) = some ⟨5, 5⟩ ∧
    isEmptyR (⟨5, 5⟩ : CRegion) = true ∧
    isEmptyR (leftOverhangRegion ⟨0, 10⟩ ⟨5, 10⟩) = false ∧
    (⟨5, 5⟩ : CRegion) ∉ lhsInactiveCandidates ⟨0, 10⟩ ⟨5, 10⟩ [⟨2, 3⟩, ⟨5, 5⟩] := by
  decide

end OctopusSpec
